import Mathlib

/-!
Verification of the MSSQL MCP server core (`src/mssql_mcp_server/server.py`).

Strings are modelled as `List Char` (Python `str` values, one `Char` per
code point).  Pure string functions of the source are translated directly;
the effectful paths (connection manager, tool-call executor, resource
reader) are embedded with the external engine/environment represented by
explicit oracle structures whose fields give the outcome of each external
call, and Python exceptions represented by `Except`/sum results.
-/

namespace MssqlMcp

/-- Whitespace predicate used to model Python's `str.strip` / `str.split()`. -/
def isWS (c : Char) : Bool := c.isWhitespace

/-- The character class `[a-zA-Z0-9_]` of the identifier regex. -/
def isWordChar (c : Char) : Bool := c.isAlphanum || c = '_'

/-- Python `s.split(sep)` for a one-character separator: always returns at
least one (possibly empty) part, keeps empty parts. -/
def splitOnChar (sep : Char) : List Char → List (List Char)
  | [] => [[]]
  | c :: cs =>
    if c = sep then [] :: splitOnChar sep cs
    else
      match splitOnChar sep cs with
      | [] => [[c]]
      | p :: ps => (c :: p) :: ps

/-- Apply `f` to the last element of a list of parts. -/
def modifyLast (f : List Char → List Char) : List (List Char) → List (List Char)
  | [] => []
  | [p] => [f p]
  | p :: ps => p :: modifyLast f ps

/-- Test whether `pre` is an initial segment of `l` (Python `str.startswith`). -/
def leadsWith : List Char → List Char → Bool
  | [], _ => true
  | _ :: _, [] => false
  | a :: as, b :: bs => a = b && leadsWith as bs

/-- Python substring containment `needle in hay`. -/
def containsSub (needle : List Char) : List Char → Bool
  | [] => needle.isEmpty
  | c :: rest => leadsWith needle (c :: rest) || containsSub needle rest

/-- Python `str.upper`, per character (sufficient for the ASCII keywords
compared against in the source). -/
def upperList (l : List Char) : List Char := l.map Char.toUpper

/-- Python `str.strip()`: drop whitespace from both ends. -/
def trimWS (l : List Char) : List Char :=
  ((l.dropWhile isWS).reverse.dropWhile isWS).reverse

/-- Structural worker for `splitWS`; the fuel always suffices because each
step removes at least one character. -/
def splitWSAux : Nat → List Char → List (List Char)
  | 0, _ => []
  | fuel + 1, l =>
    match l.dropWhile isWS with
    | [] => []
    | c :: cs =>
      (c :: cs.takeWhile (fun d => !isWS d)) ::
        splitWSAux fuel (cs.dropWhile (fun d => !isWS d))

/-- Python `str.split()` (no argument): split on runs of whitespace,
discarding empty tokens. -/
def splitWS (l : List Char) : List (List Char) := splitWSAux (l.length + 1) l

/-- Structural worker for `natToChars`. -/
def natToCharsAux : Nat → Nat → List Char
  | 0, _ => []
  | fuel + 1, n =>
    if n < 10 then [Char.ofNat (48 + n)]
    else natToCharsAux fuel (n / 10) ++ [Char.ofNat (48 + n % 10)]

/-- Decimal digits of a natural number (Python `str(n)` for `n ≥ 0`). -/
def natToChars (n : Nat) : List Char := natToCharsAux (n + 1) n

/-- Python `str(i)` for an `int` (the cursor's `rowcount` may be `-1`). -/
def intToChars (i : Int) : List Char :=
  if i < 0 then '-' :: natToChars i.natAbs else natToChars i.toNat

/-! ## Identifier sanitizer (`validate_table_name`, server.py lines 17-30) -/

/-- Full-string match of the regex `^[a-zA-Z0-9_]+(\.[a-zA-Z0-9_]+)?$`:
a nonempty run of word characters, optionally followed by a dot and a
second nonempty run of word characters. -/
def matchesIdentFull (l : List Char) : Bool :=
  let p1 := l.takeWhile isWordChar
  let rest := l.dropWhile isWordChar
  !p1.isEmpty &&
    (match rest with
     | [] => true
     | c :: p2 => c = '.' && !p2.isEmpty && p2.all isWordChar)

/-- Python `re.match(r'^[a-zA-Z0-9_]+(\.[a-zA-Z0-9_]+)?$', s)`: the `$`
anchor of Python's `re` also matches just before a single newline at the
end of the string, so `s` is accepted exactly when `s` matches the pattern
fully or `s` is a full match followed by one trailing `'\n'`. -/
def reMatchIdent (l : List Char) : Bool :=
  matchesIdentFull l ||
    (l.getLast? = some '\n' && matchesIdentFull l.dropLast)

/-- Function `validate_table_name` (server.py 17-30): reject unless the regex
matches; then split on `'.'` and wrap the two parts (or the whole input)
in square brackets.  `none` models the raised `ValueError`. -/
def validate_table_name (l : List Char) : Option (List Char) :=
  if reMatchIdent l then
    match splitOnChar '.' l with
    | [a, b] => some ('[' :: a ++ ']' :: '.' :: '[' :: b ++ [']'])
    | _ => some ('[' :: l ++ [']'])
  else none

/-! ## Statement classifier (`is_select_query`, server.py lines 81-103) -/

/-- Scan for the first `*/` and return the remainder after it
(the search that `.*?\*/` performs after an opening `/*`). -/
def findClose : List Char → Option (List Char)
  | '*' :: '/' :: rest => some rest
  | _ :: rest => findClose rest
  | [] => none

/-- Structural worker for `removeBlockComments`; `findClose` strictly
shrinks the list, so fuel equal to the input length always suffices. -/
def removeBCAux : Nat → List Char → List Char
  | 0, l => l
  | fuel + 1, l =>
    match l with
    | '/' :: '*' :: rest =>
      (match findClose rest with
       | some after => removeBCAux fuel after
       | none => '/' :: '*' :: rest)
    | c :: rest => c :: removeBCAux fuel rest
    | [] => []

/-- Python `re.sub(r'/\*.*?\*/', '', query, flags=re.DOTALL)`: repeatedly delete
the leftmost `/*`, non-greedily matched with the first following `*/`;
an opening `/*` with no later `*/` is left in place (the regex then has
no further match anywhere in the remainder). -/
def removeBlockComments (l : List Char) : List Char := removeBCAux l.length l

/-- Truncate one line at the first occurrence of `--`
(`line.find('--')` followed by slicing, server.py 94-96). -/
def stripLineComment : List Char → List Char
  | '-' :: '-' :: _ => []
  | c :: rest => c :: stripLineComment rest
  | [] => []

/-- The full comment-stripping pipeline of `is_select_query`: strip block
comments, split into lines, truncate each line at `--`, re-join with
newlines. -/
def stripComments (q : List Char) : List Char :=
  List.intercalate ['\n']
    ((splitOnChar '\n' (removeBlockComments q)).map stripLineComment)

/-- The keyword compared against. -/
def selectKW : List Char := "SELECT".data

/-- Function `is_select_query` (server.py 81-103): strip comments, take
`stripped.split()[0] if stripped else ""`, compare its upper-casing with
`"SELECT"`. -/
def is_select_query (q : List Char) : Bool :=
  let stripped := trimWS (stripComments q)
  let firstWord :=
    if stripped.isEmpty then [] else (splitWS stripped).headD []
  upperList firstWord = selectKW

/-- The two-way classification the spec describes. -/
inductive Classification
  | ReadOnly
  | Mutating
deriving DecidableEq

/-- Classification as the spec names it: `ReadOnly` iff `is_select_query`. -/
def classify (q : List Char) : Classification :=
  if is_select_query q then .ReadOnly else .Mutating

/-- Spec-side reading of C2: after the comment-stripping pipeline and
trimming, the first whitespace-delimited token (leading whitespace
dropped, then the maximal run of non-whitespace). -/
def firstTokenSpec (q : List Char) : List Char :=
  ((trimWS (stripComments q)).dropWhile isWS).takeWhile (fun d => !isWS d)

/-! ## Connection descriptor (`get_connection_string`, server.py lines 32-75) -/

/-- Environment-sourced configuration: each field is the value of the
corresponding `MSSQL_*` environment variable (`none` when unset). -/
structure Config where
  server : Option (List Char)
  database : Option (List Char)
  user : Option (List Char)
  password : Option (List Char)
  port : Option (List Char)
  driver : Option (List Char)
  windowsAuth : Option (List Char)
  encrypt : Option (List Char)
  trustCert : Option (List Char)

/-- Python f-string interpolation of a possibly-`None` value. -/
def optChars : Option (List Char) → List Char
  | some s => s
  | none => "None".data

/-- Python `str.lower`, per character. -/
def lowerList (l : List Char) : List Char := l.map Char.toLower

/-- Model of `os.getenv(var, "false").lower() == "true"`. -/
def envFlag (v : Option (List Char)) : Bool :=
  lowerList (v.getD "false".data) = "true".data

/-- Python truthiness of an optional string (`not user` is true when the
variable is unset or empty). -/
def truthy : Option (List Char) → Bool
  | some s => !s.isEmpty
  | none => false

/-- Function `get_connection_string` (server.py 32-75): build the ODBC
connection descriptor from the current configuration; raises `ValueError`
(modelled as `Except.error`) when SQL authentication is selected and the
user or password is missing. -/
def get_connection_string (c : Config) : Except (List Char) (List Char) :=
  let server := c.server.getD "localhost".data
  let port := c.port.getD "1433".data
  let driver :=
    match c.driver with
    | some d => '\x7b' :: d ++ ['\x7d']
    | none => "\x7bODBC Driver 17 for SQL Server\x7d".data
  let base := "DRIVER=".data ++ driver ++ ";SERVER=".data ++ server ++
    [','] ++ port ++ ";DATABASE=".data ++ optChars c.database
  let authed :=
    if envFlag c.windowsAuth then
      Except.ok (base ++ ";Trusted_Connection=yes".data)
    else if truthy c.user && truthy c.password then
      Except.ok (base ++ ";UID=".data ++ optChars c.user ++
        ";PWD=".data ++ optChars c.password)
    else
      Except.error
        "MSSQL_USER and MSSQL_PASSWORD are required for SQL Authentication".data
  match authed with
  | .error e => .error e
  | .ok s =>
    if envFlag c.encrypt then
      if envFlag c.trustCert then
        .ok (s ++ ";Encrypt=yes".data ++ ";TrustServerCertificate=yes".data)
      else .ok (s ++ ";Encrypt=yes".data)
    else .ok s

/-! ## Connection manager (`DBConnection.get_connection`, server.py 106-134) -/

/-- Observable actions the connection manager performs against the outside
world, in order: the `SELECT 1` liveness probe of an existing handle, the
best-effort `close()` of a stale handle (its own errors are swallowed by
the source's bare `except: pass`, so no outcome is recorded), and a
`pyodbc.connect(conn_str)` attempt with its outcome. -/
inductive ConnEvent
  | probe (h : Nat) (ok : Bool)
  | closeAttempt (h : Nat)
  | openAttempt (connStr : List Char) (res : Except (List Char) Nat)

/-- Environment oracle for one `get_connection` call: whether the `SELECT 1`
probe of a given handle succeeds, and what `pyodbc.connect` returns for a
given connection string. -/
structure ConnWorld where
  probeOk : Nat → Bool
  connect : List Char → Except (List Char) Nat

/-- Method `DBConnection.get_connection` (server.py 106-134) as a state
transition on the class attribute `_conn : Option Nat`: returns the raised
or returned value, the new stored state, and the trace of external actions.
The connection string is rebuilt from the configuration at the top of
every call; an existing handle is probed, and on probe failure it is
closed (best-effort) and replaced. -/
def get_connection (w : ConnWorld) (cfg : Config) (st : Option Nat) :
    Except (List Char) Nat × Option Nat × List ConnEvent :=
  match get_connection_string cfg with
  | .error e => (.error e, st, [])
  | .ok cs =>
    match st with
    | none =>
      match w.connect cs with
      | .error e => (.error e, none, [.openAttempt cs (.error e)])
      | .ok h => (.ok h, some h, [.openAttempt cs (.ok h)])
    | some c =>
      if w.probeOk c then (.ok c, some c, [.probe c true])
      else
        match w.connect cs with
        | .error e =>
          (.error e, some c,
            [.probe c false, .closeAttempt c, .openAttempt cs (.error e)])
        | .ok h =>
          (.ok h, some h,
            [.probe c false, .closeAttempt c, .openAttempt cs (.ok h)])

/-! ## Tool-call executor (`call_tool`, server.py lines 225-273) -/

/-- Outcome of a `call_tool` invocation: either a `ValueError` raised to
the dispatch layer (before the `try` block) or the single `TextContent`
value returned to it. -/
inductive ToolResult
  | raised (msg : List Char)
  | text (t : List Char)
deriving DecidableEq

/-- Engine oracle for one `call_tool` invocation, over an abstract cell
type: `str` is Python's `str()` on a fetched cell, and the `Except` fields
give the outcome of connection acquisition, `cursor.execute`,
`cursor.fetchall` and `conn.commit`; `description` lists the
engine-reported column names (`desc[0]`), `rowcount` the engine-reported
affected-row count. -/
structure Engine (Cell : Type) where
  str : Cell → List Char
  acquireRes : Except (List Char) Unit
  executeRes : Except (List Char) Unit
  description : List (List Char)
  fetchRes : Except (List Char) (List (List Cell))
  commitRes : Except (List Char) Unit
  rowcount : Int

/-- Comma-join one fetched row after stringifying each cell
(`",".join(map(str, row))`). -/
def renderRow {Cell : Type} (f : Cell → List Char) (r : List Cell) : List Char :=
  List.intercalate [','] (r.map f)

/-- Newline-join a list of lines (`"\n".join(...)`). -/
def renderLines (lines : List (List Char)) : List Char :=
  List.intercalate ['\n'] lines

/-- The RowSet rendering of the regular-SELECT branch: the comma-joined
column names, then one comma-joined line per stringified row. -/
def renderRowSet {Cell : Type} (f : Cell → List Char)
    (cols : List (List Char)) (rows : List (List Cell)) : List Char :=
  renderLines (List.intercalate [','] cols :: rows.map (renderRow f))

/-- The list comprehension `[table[0] for table in tables]`: the first cell
of each row, stringified; an empty row raises `IndexError` (caught by the
surrounding `try`). -/
def firstColumn {Cell : Type} (f : Cell → List Char) :
    List (List Cell) → Except (List Char) (List (List Char))
  | [] => .ok []
  | r :: rs =>
    match r with
    | [] => .error "tuple index out of range".data
    | c :: _ =>
      match firstColumn f rs with
      | .error e => .error e
      | .ok ns => .ok (f c :: ns)

/-- Message head of the text produced by the catch-all handler. -/
def execErrHead : List Char := "Error executing query: ".data

/-- The needle of the special table-listing branch. -/
def infoSchemaNeedle : List Char := "INFORMATION_SCHEMA.TABLES".data

/-- Header literal of the special table-listing branch. -/
def tablesFoundHdr : List Char := "Tables_found".data

/-- Message head of the mutating-branch success text. -/
def rowsAffectedHead : List Char :=
  "Query executed successfully. Rows affected: ".data

/-- Function `call_tool` (server.py 225-273): validate the tool name and
the presence of a non-empty query (raising `ValueError` otherwise, outside
the `try`); then, inside the `try`, acquire a connection, execute, and
branch on `is_select_query` and on the `INFORMATION_SCHEMA.TABLES`
substring; every exception inside the `try` becomes the
`"Error executing query: ..."` text. -/
def call_tool {Cell : Type} (command name : List Char)
    (queryArg : Option (List Char)) (eng : Engine Cell) : ToolResult :=
  if name = command then
    match queryArg with
    | none => .raised "Query is required".data
    | some q =>
      if q.isEmpty then .raised "Query is required".data
      else
        match eng.acquireRes with
        | .error e => .text (execErrHead ++ e)
        | .ok _ =>
          match eng.executeRes with
          | .error e => .text (execErrHead ++ e)
          | .ok _ =>
            if is_select_query q && containsSub infoSchemaNeedle (upperList q) then
              match eng.fetchRes with
              | .error e => .text (execErrHead ++ e)
              | .ok rows =>
                match firstColumn eng.str rows with
                | .error e => .text (execErrHead ++ e)
                | .ok names => .text (renderLines (tablesFoundHdr :: names))
            else if is_select_query q then
              match eng.fetchRes with
              | .error e => .text (execErrHead ++ e)
              | .ok rows => .text (renderRowSet eng.str eng.description rows)
            else
              match eng.commitRes with
              | .error e => .text (execErrHead ++ e)
              | .ok _ => .text (rowsAffectedHead ++ intToChars eng.rowcount)
  else .raised ("Unknown tool: ".data ++ name)

/-! ## Resource reader (`read_resource`, server.py lines 172-201) -/

/-- One database table as the engine sees it: column names and rows of
cells. -/
structure Table (Cell : Type) where
  columns : List (List Char)
  rows : List (List Cell)

/-- Environment oracle for `read_resource`: cell stringification, the
outcome of connection acquisition, and the catalog mapping a bracketed
table reference to its table (or an engine error). -/
structure RRWorld (Cell : Type) where
  str : Cell → List Char
  connRes : Except (List Char) Unit
  db : List Char → Except (List Char) (Table Cell)

/-- The fixed statement head generated by the preview path. -/
def previewHeadSql : List Char := "SELECT TOP 100 * FROM ".data

/-- URI scheme literal checked by `read_resource`. -/
def schemeChars : List Char := "mssql://".data

/-- Modelled from the spec: the SQL engine (out of scope per spec section 1,
reached through a call/fetch interface) executing the one statement shape
the preview path generates -- `SELECT TOP 100 * FROM <table>` returns the
table's column names and at most its first 100 rows (the spec's hard cap
of 100 returned rows, section 4.4). -/
def runPreviewSql {Cell : Type} (db : List Char → Except (List Char) (Table Cell))
    (sql : List Char) : Except (List Char) (List (List Char) × List (List Cell)) :=
  if leadsWith previewHeadSql sql then
    match db (sql.drop previewHeadSql.length) with
    | .error e => .error e
    | .ok t => .ok (t.columns, t.rows.take 100)
  else .error "statement shape not modelled".data

/-- Failures `read_resource` raises: the `ValueError` for a bad scheme
(before the `try`) and the `RuntimeError` wrapping any exception of the
`try` body. -/
inductive RRErr
  | valueErr (msg : List Char)
  | runtimeErr (msg : List Char)
deriving DecidableEq

/-- Table-name extraction of `read_resource`: `uri_str[8:].split('/')[0]`. -/
def rrTable (uri : List Char) : List Char :=
  (splitOnChar '/' (uri.drop 8)).headD []

/-- Message head of the wrapped `RuntimeError`. -/
def dbErrHead : List Char := "Database error: ".data

/-- Message of the `ValueError` raised by `validate_table_name`. -/
def invalidNameHead : List Char := "Invalid table name: ".data

/-- Function `read_resource` (server.py 172-201): check the scheme (raising
`ValueError` otherwise), extract the table name, and inside the `try`
sanitize it, acquire a connection, run the generated
`SELECT TOP 100 * FROM <safe>` and render the RowSet; any exception of the
`try` body is re-raised as `RuntimeError("Database error: ...")`. -/
def read_resource {Cell : Type} (w : RRWorld Cell) (uri : List Char) :
    Except RRErr (List Char) :=
  if leadsWith schemeChars uri then
    match validate_table_name (rrTable uri) with
    | none => .error (.runtimeErr (dbErrHead ++ invalidNameHead ++ rrTable uri))
    | some safe =>
      match w.connRes with
      | .error e => .error (.runtimeErr (dbErrHead ++ e))
      | .ok _ =>
        match runPreviewSql w.db (previewHeadSql ++ safe) with
        | .error e => .error (.runtimeErr (dbErrHead ++ e))
        | .ok (cols, rows) => .ok (renderRowSet w.str cols rows)
  else .error (.valueErr ("Invalid URI scheme: ".data ++ uri))

/-! ## Resource lister (`list_resources`, server.py lines 140-170) -/

/-- The fields of an MCP `Resource` value the source constructs. -/
structure MCPResource where
  uri : List Char
  name : List Char
  about : List Char
deriving DecidableEq

/-- The `Resource` built for one table name (server.py 157-164). -/
def mkTableResource (t : List Char) : MCPResource :=
  { uri := schemeChars ++ t ++ "/data".data
    name := "Table: ".data ++ t
    about := "Data in table: ".data ++ t }

/-- Function `list_resources` (server.py 140-170): the whole body sits in a
`try` whose handler returns `[]`, so `catalog` is the combined outcome of
connection acquisition, the `INFORMATION_SCHEMA.TABLES` query and the
fetch (error on any exception, else the fetched first-column table
names); on success one `Resource` per table is built. -/
def list_resources (catalog : Except (List Char) (List (List Char))) :
    List MCPResource :=
  match catalog with
  | .error _ => []
  | .ok tables => tables.map mkTableResource

/-! ## Supporting lemmas -/

theorem splitOnChar_ne_nil (sep : Char) (l : List Char) :
    splitOnChar sep l ≠ [] := by
  cases l with
  | nil => simp [splitOnChar]
  | cons c cs =>
    simp only [splitOnChar]
    by_cases h : c = sep
    · simp [h]
    · simp only [if_neg h]
      cases splitOnChar sep cs <;> simp

theorem splitOnChar_no_sep {sep : Char} {l : List Char}
    (h : ∀ c ∈ l, c ≠ sep) : splitOnChar sep l = [l] := by
  induction l with
  | nil => rfl
  | cons c cs ih =>
    have hc : c ≠ sep := h c (by simp)
    have ih' := ih (fun d hd => h d (by simp [hd]))
    simp [splitOnChar, hc, ih']

theorem splitOnChar_two {sep : Char} {a b : List Char}
    (ha : ∀ c ∈ a, c ≠ sep) (hb : ∀ c ∈ b, c ≠ sep) :
    splitOnChar sep (a ++ sep :: b) = [a, b] := by
  induction a with
  | nil => simp [splitOnChar, splitOnChar_no_sep hb]
  | cons c cs ih =>
    have hc : c ≠ sep := ha c (by simp)
    have ih' := ih (fun d hd => ha d (by simp [hd]))
    simp [splitOnChar, hc, ih']

theorem splitOnChar_append_last {sep c : Char} (hc : c ≠ sep) (l : List Char) :
    splitOnChar sep (l ++ [c]) = modifyLast (· ++ [c]) (splitOnChar sep l) := by
  induction l with
  | nil => simp [splitOnChar, hc, modifyLast]
  | cons x xs ih =>
    simp only [List.cons_append, splitOnChar, List.append_eq]
    by_cases hx : x = sep
    · rw [if_pos hx, if_pos hx, ih]
      cases hsp : splitOnChar sep xs with
      | nil => exact absurd hsp (splitOnChar_ne_nil sep xs)
      | cons p ps => simp [modifyLast]
    · rw [if_neg hx, if_neg hx, ih]
      cases hsp : splitOnChar sep xs with
      | nil => exact absurd hsp (splitOnChar_ne_nil sep xs)
      | cons p ps =>
        cases ps with
        | nil => simp [modifyLast]
        | cons p2 ps2 => simp [modifyLast]

theorem isWordChar_ne_dot {c : Char} (h : isWordChar c = true) : c ≠ '.' := by
  intro he
  subst he
  simp [isWordChar, Char.isAlphanum, Char.isAlpha, Char.isUpper,
    Char.isLower, Char.isDigit] at h

/-- Elimination form of the full-regex match: the input is a single
nonempty word-character run, or two such runs joined by one dot. -/
theorem matchesIdentFull_elim {l : List Char} (h : matchesIdentFull l = true) :
    (l ≠ [] ∧ l.all isWordChar = true) ∨
    (∃ a b, l = a ++ '.' :: b ∧ a ≠ [] ∧ a.all isWordChar = true ∧
      b ≠ [] ∧ b.all isWordChar = true) := by
  unfold matchesIdentFull at h
  simp only [Bool.and_eq_true] at h
  obtain ⟨h1, h2⟩ := h
  rcases hrest : l.dropWhile isWordChar with _ | ⟨c, p2⟩
  · left
    have hall : l.takeWhile isWordChar = l := by
      have := List.takeWhile_append_dropWhile (p := isWordChar) (l := l)
      rw [hrest] at this
      simpa using this
    constructor
    · intro he
      subst he
      simp at h1
    · rw [← hall]
      exact List.all_eq_true.2 (fun c hc => List.mem_takeWhile_imp hc)
  · right
    rw [hrest] at h2
    simp only [Bool.and_eq_true, decide_eq_true_eq] at h2
    obtain ⟨⟨hcdot, hp2ne⟩, hp2all⟩ := h2
    refine ⟨l.takeWhile isWordChar, p2, ?_, ?_, ?_, ?_, hp2all⟩
    · have := List.takeWhile_append_dropWhile (p := isWordChar) (l := l)
      rw [hrest] at this
      rw [hcdot] at this
      exact this.symm
    · intro he
      rw [he] at h1
      simp at h1
    · exact List.all_eq_true.2 (fun d hd => List.mem_takeWhile_imp hd)
    · intro he
      rw [he] at hp2ne
      simp at hp2ne

/-- The shape of a successful sanitizer output: brackets around the parts
produced by the dot-split of the accepted input. -/
def okPart (x : List Char) : Prop :=
  x.all isWordChar = true ∨ ∃ y, x = y ++ ['\n'] ∧ y.all isWordChar = true

theorem all_word_no_dot {l : List Char} (h : l.all isWordChar = true) :
    ∀ c ∈ l, c ≠ '.' :=
  fun c hc => isWordChar_ne_dot (List.all_eq_true.1 h c hc)

/-! ## C1: sanitizer accept/reject behavior -/

/-- C1: the claim says every string not matching
`^[A-Za-z0-9_]+(\.[A-Za-z0-9_]+)?$` is rejected with `InvalidIdentifier`,
but Python's `$` anchor also matches just before a single trailing
newline, so the source accepts `"abc\n"` (which does not match the
pattern as a full-string match) and returns `"[abc\n]"` instead of
failing. -/
theorem C1_sanitizer_trailing_newline_accepted :
    validate_table_name "abc\n".data = some "[abc\n]".data ∧
    matchesIdentFull "abc\n".data = false := by
  constructor <;> decide

/-! ## C10: characters of the sanitized output -/

/-- C10 counterexample: the implicit claim that every character between
the output's bracket delimiters is in `[A-Za-z0-9_]` (in particular no
whitespace) fails: `"T1\n"` is accepted and the newline survives between
the brackets. -/
theorem C10_counterexample_newline_between_brackets :
    validate_table_name "T1\n".data = some ('[' :: "T1\n".data ++ [']']) ∧
    "T1\n".data.all isWordChar = false ∧
    isWS '\n' = true := by
  refine ⟨by decide, by decide, by decide⟩

/-- C10 (amended): every successful sanitizer output is `[a]` or
`[a].[b]` where every character of `a` (and of `b`) is in `[A-Za-z0-9_]`,
except possibly one trailing newline in the final part (admitted by the
`$` anchor).  In particular the content between the delimiters never
contains `]`, quotes, semicolons, or any other character, so the bracket
quoting cannot be terminated early by caller-controlled content. -/
theorem C10_sanitized_output_shape (l out : List Char)
    (h : validate_table_name l = some out) :
    (∃ a, out = '[' :: a ++ [']'] ∧ okPart a) ∨
    (∃ a b, out = '[' :: a ++ ']' :: '.' :: '[' :: b ++ [']'] ∧
      a.all isWordChar = true ∧ okPart b) := by
  unfold validate_table_name at h
  by_cases hm : reMatchIdent l = true
  · rw [if_pos hm] at h
    unfold reMatchIdent at hm
    simp only [Bool.or_eq_true, Bool.and_eq_true, decide_eq_true_eq] at hm
    rcases hm with hfull | ⟨hlast, hfull⟩
    · rcases matchesIdentFull_elim hfull with ⟨-, hall⟩ | ⟨a, b, hl, -, haall, -, hball⟩
      · rw [splitOnChar_no_sep (all_word_no_dot hall)] at h
        cases h
        exact .inl ⟨l, rfl, .inl hall⟩
      · subst hl
        rw [splitOnChar_two (all_word_no_dot haall) (all_word_no_dot hball)] at h
        cases h
        exact .inr ⟨a, b, rfl, haall, .inl hball⟩
    · obtain ⟨m, hm⟩ : ∃ m, l.dropLast = m := ⟨_, rfl⟩
      have hsplit : m ++ ['\n'] = l := by
        rw [← hm]
        exact List.dropLast_append_getLast? _ hlast
      rw [hm] at hfull
      rcases matchesIdentFull_elim hfull with ⟨-, hall⟩ | ⟨a, b, hl, -, haall, -, hball⟩
      · rw [← hsplit, splitOnChar_append_last (by decide),
          splitOnChar_no_sep (all_word_no_dot hall)] at h
        simp only [modifyLast] at h
        cases h
        exact .inl ⟨m ++ ['\n'], rfl, .inr ⟨m, rfl, hall⟩⟩
      · rw [← hsplit, hl, splitOnChar_append_last (by decide),
          splitOnChar_two (all_word_no_dot haall) (all_word_no_dot hball)] at h
        simp only [modifyLast] at h
        cases h
        exact .inr ⟨a, b ++ ['\n'], rfl, haall, .inr ⟨b, rfl, hball⟩⟩
  · rw [if_neg hm] at h
    cases h

/-- C10 witness: the shape theorem applied to the accepted identifier
`dbo.Users`. -/
theorem C10_sanitized_output_shape_witness :
    (∃ a, "[dbo].[Users]".data = '[' :: a ++ [']'] ∧ okPart a) ∨
    (∃ a b, "[dbo].[Users]".data = '[' :: a ++ ']' :: '.' :: '[' :: b ++ [']'] ∧
      a.all isWordChar = true ∧ okPart b) :=
  C10_sanitized_output_shape "dbo.Users".data "[dbo].[Users]".data (by decide)

/-! ## C2: statement classification -/

theorem first_token_eq (m : List Char) :
    (if m.isEmpty then [] else (splitWS m).headD []) =
      (m.dropWhile isWS).takeWhile (fun d => !isWS d) := by
  cases m with
  | nil => simp
  | cons x xs =>
    simp only [List.isEmpty_cons, if_neg Bool.false_ne_true, splitWS, splitWSAux]
    cases hd : (x :: xs).dropWhile isWS with
    | nil => simp [hd]
    | cons c cs =>
      have hc : isWS c = false := by
        have := List.head?_dropWhile_not isWS (x :: xs)
        rw [hd] at this
        simpa using this
      simp [hd, hc]

theorem is_select_query_eq_spec (q : List Char) :
    is_select_query q = true ↔ upperList (firstTokenSpec q) = selectKW := by
  unfold is_select_query firstTokenSpec
  simp only [first_token_eq]
  exact decide_eq_true_iff

/-- C2: `classify` answers `ReadOnly` exactly when, after stripping block
comments, truncating each line at its first `--`, and trimming, the first
whitespace-delimited token upper-cases to `SELECT`; every other statement
(in particular one that strips to nothing, whose token is the empty
string) is `Mutating`. -/
theorem C2_classify_iff_first_token_select (q : List Char) :
    classify q = Classification.ReadOnly ↔
      upperList (firstTokenSpec q) = selectKW := by
  rw [← is_select_query_eq_spec]
  unfold classify
  cases hb : is_select_query q <;> simp [hb]

/-! ## C3: execution errors become values -/

/-- C3: once the dispatch-level guards pass (matching tool name, non-empty
query), `call_tool` always returns a `text` value, whatever the engine
does -- no exception of the `try` body (acquisition, submission, fetch,
commit) reaches the dispatch layer; and an exception raised by statement
submission is rendered with the `"Error executing query: "` head. -/
theorem C3_execution_errors_are_values {Cell : Type} (eng : Engine Cell)
    (command q : List Char) (hq : q ≠ []) :
    (∃ t, call_tool command command (some q) eng = .text t) ∧
    (∀ e, eng.acquireRes = .ok () → eng.executeRes = .error e →
      call_tool command command (some q) eng = .text (execErrHead ++ e)) ∧
    (∀ e, eng.acquireRes = .ok () → eng.executeRes = .ok () →
      is_select_query q = true → eng.fetchRes = .error e →
      call_tool command command (some q) eng = .text (execErrHead ++ e)) ∧
    (∀ e, eng.acquireRes = .ok () → eng.executeRes = .ok () →
      is_select_query q = false → eng.commitRes = .error e →
      call_tool command command (some q) eng = .text (execErrHead ++ e)) := by
  have hq' : q.isEmpty = false := by
    cases q with
    | nil => exact absurd rfl hq
    | cons a as => rfl
  unfold call_tool
  rw [if_pos rfl]
  simp only [hq', Bool.false_eq_true, if_false]
  constructor
  · rcases ha : eng.acquireRes with ea | u
    · exact ⟨_, rfl⟩
    · rcases he : eng.executeRes with ee | v
      · exact ⟨_, rfl⟩
      · by_cases h1 : (is_select_query q && containsSub infoSchemaNeedle (upperList q)) = true
        · rw [if_pos h1]
          rcases hf : eng.fetchRes with ef | rows
          · exact ⟨_, rfl⟩
          · show ∃ t,
                (match firstColumn eng.str rows with
                 | Except.error e => ToolResult.text (execErrHead ++ e)
                 | Except.ok names =>
                   ToolResult.text (renderLines (tablesFoundHdr :: names))) =
                  ToolResult.text t
            rcases hc : firstColumn eng.str rows with ec | ns
            · exact ⟨_, rfl⟩
            · exact ⟨_, rfl⟩
        · rw [if_neg h1]
          by_cases h2 : is_select_query q = true
          · rw [if_pos h2]
            rcases hf : eng.fetchRes with ef | rows
            · exact ⟨_, rfl⟩
            · exact ⟨_, rfl⟩
          · rw [if_neg h2]
            rcases hcm : eng.commitRes with ec | w
            · exact ⟨_, rfl⟩
            · exact ⟨_, rfl⟩
  · refine ⟨?_, ?_, ?_⟩
    · intro e hacq hexe
      rw [hacq, hexe]
    · intro e hacq hexe hsel hfetch
      rw [hacq, hexe]
      by_cases hcond :
          (is_select_query q && containsSub infoSchemaNeedle (upperList q)) = true
      · rw [if_pos hcond, hfetch]
      · rw [if_neg hcond, if_pos hsel, hfetch]
    · intro e hacq hexe hsel hcommit
      rw [hacq, hexe]
      rw [if_neg (by simp [hsel]), if_neg (by simp [hsel]), hcommit]

/-- Engine used to witness C3: statement submission raises. -/
def engSubmitFail : Engine (List Char) :=
  { str := fun s => s
    acquireRes := .ok ()
    executeRes := .error "Syntax error".data
    description := []
    fetchRes := .ok []
    commitRes := .ok ()
    rowcount := 0 }

/-- C3 witness: a failing submission of a concrete statement comes back as
the formatted error text, not as an exception. -/
theorem C3_execution_errors_are_values_witness :
    call_tool "execute_sql".data "execute_sql".data (some "SELEC 1".data)
      engSubmitFail = .text (execErrHead ++ "Syntax error".data) :=
  (C3_execution_errors_are_values engSubmitFail "execute_sql".data
    "SELEC 1".data (by decide)).2.1 "Syntax error".data rfl rfl

/-! ## C4: RowSet formatting of read-only statements -/

/-- Engine whose catalog query exercises the special
`INFORMATION_SCHEMA.TABLES` branch. -/
def engInfoSchema : Engine (List Char) :=
  { str := fun s => s
    acquireRes := .ok ()
    executeRes := .ok ()
    description := ["TABLE_NAME".data]
    fetchRes := .ok [["Users".data]]
    commitRes := .ok ()
    rowcount := 0 }

/-- C4 counterexample: a statement classified ReadOnly that executes
without error but contains `INFORMATION_SCHEMA.TABLES` is NOT rendered
with the engine-reported column names: the source's special branch
substitutes the literal header `Tables_found`. -/
theorem C4_counterexample_info_schema_header :
    call_tool "execute_sql".data "execute_sql".data
        (some "SELECT TABLE_NAME FROM INFORMATION_SCHEMA.TABLES".data)
        engInfoSchema =
      .text "Tables_found\nUsers".data ∧
    "Tables_found\nUsers".data ≠
      renderRowSet (fun s => s) engInfoSchema.description [["Users".data]] := by
  constructor
  · decide
  · decide

/-- C4 (amended): for every statement classified ReadOnly whose upper-cased
text does not contain `INFORMATION_SCHEMA.TABLES`, successful execution
via the tool-call path returns the RowSet rendered as the comma-joined
engine-reported column names followed by one comma-joined line per fetched
row with every cell stringified. -/
theorem C4_select_rowset_rendering {Cell : Type} (eng : Engine Cell)
    (command q : List Char) (rows : List (List Cell))
    (hq : q ≠ []) (hsel : is_select_query q = true)
    (hinfo : containsSub infoSchemaNeedle (upperList q) = false)
    (hacq : eng.acquireRes = .ok ()) (hexe : eng.executeRes = .ok ())
    (hfetch : eng.fetchRes = .ok rows) :
    call_tool command command (some q) eng =
      .text (renderRowSet eng.str eng.description rows) := by
  have hq' : q.isEmpty = false := by
    cases q with
    | nil => exact absurd rfl hq
    | cons a as => rfl
  unfold call_tool
  rw [if_pos rfl]
  simp only [hq', Bool.false_eq_true, if_false, hacq, hexe, hfetch, hsel,
    hinfo, Bool.and_false, if_false, if_true]

/-- Engine realizing the spec scenario: a two-row, two-column `Users`
table. -/
def engUsers : Engine (List Char) :=
  { str := fun s => s
    acquireRes := .ok ()
    executeRes := .ok ()
    description := ["Id".data, "Name".data]
    fetchRes := .ok [["1".data, "Alice".data], ["2".data, "Bob".data]]
    commitRes := .ok ()
    rowcount := 0 }

/-- C4 witness: the spec scenario `SELECT * FROM Users` renders as
`"Id,Name\n1,Alice\n2,Bob"`. -/
theorem C4_select_rowset_rendering_witness :
    call_tool "execute_sql".data "execute_sql".data
        (some "SELECT * FROM Users".data) engUsers =
      .text "Id,Name\n1,Alice\n2,Bob".data := by
  have h := C4_select_rowset_rendering engUsers "execute_sql".data
    "SELECT * FROM Users".data
    [["1".data, "Alice".data], ["2".data, "Bob".data]]
    (by decide) (by decide) (by decide) rfl rfl rfl
  rw [h]
  decide

/-! ## C6: mutating statements commit and report the row count -/

/-- C6: a statement not classified ReadOnly that executes and commits
without error returns the engine-reported affected-row count rendered as
`"Query executed successfully. Rows affected: N"`. -/
theorem C6_mutating_rows_affected {Cell : Type} (eng : Engine Cell)
    (command q : List Char)
    (hq : q ≠ []) (hsel : is_select_query q = false)
    (hacq : eng.acquireRes = .ok ()) (hexe : eng.executeRes = .ok ())
    (hcommit : eng.commitRes = .ok ()) :
    call_tool command command (some q) eng =
      .text (rowsAffectedHead ++ intToChars eng.rowcount) := by
  have hq' : q.isEmpty = false := by
    cases q with
    | nil => exact absurd rfl hq
    | cons a as => rfl
  unfold call_tool
  rw [if_pos rfl]
  simp only [hq', Bool.false_eq_true, if_false, hacq, hexe, hcommit, hsel,
    Bool.false_and, if_false]

/-- Engine realizing the spec scenario: a `DELETE` affecting one row. -/
def engDelete : Engine (List Char) :=
  { str := fun s => s
    acquireRes := .ok ()
    executeRes := .ok ()
    description := []
    fetchRes := .ok []
    commitRes := .ok ()
    rowcount := 1 }

/-- C6 witness: the spec scenario `DELETE FROM Users WHERE Id=1` with one
affected row renders as the success message with count 1. -/
theorem C6_mutating_rows_affected_witness :
    call_tool "execute_sql".data "execute_sql".data
        (some "DELETE FROM Users WHERE Id=1".data) engDelete =
      .text "Query executed successfully. Rows affected: 1".data := by
  have h := C6_mutating_rows_affected engDelete "execute_sql".data
    "DELETE FROM Users WHERE Id=1".data
    (by decide) (by decide) rfl rfl rfl
  rw [h]
  decide

/-! ## C5: connection lifecycle invariants -/

/-- C5: the single stored handle is the only one the manager tracks; on
every call the descriptor is rebuilt from the configuration passed to that
call (`cs` below); an existing handle is always probed before being handed
out, and on probe failure the stale handle is closed (best-effort, no
outcome consulted) and then a replacement is opened -- both before the
call returns -- and the replacement overwrites the stored slot. -/
theorem C5_connection_lifecycle (w : ConnWorld) (cfg : Config) (c : Nat)
    (cs : List Char) (hcs : get_connection_string cfg = .ok cs) :
    (w.probeOk c = true →
      get_connection w cfg (some c) = (.ok c, some c, [.probe c true])) ∧
    (∀ h, w.probeOk c = false → w.connect cs = .ok h →
      get_connection w cfg (some c) =
        (.ok h, some h,
          [.probe c false, .closeAttempt c, .openAttempt cs (.ok h)])) := by
  constructor
  · intro hp
    unfold get_connection
    rw [hcs]
    simp [hp]
  · intro h hp hconn
    unfold get_connection
    rw [hcs]
    simp [hp, hconn]

/-- Configuration used by the connection witnesses (windows auth, so no
credentials are required). -/
def cfgWitness : Config :=
  { server := some "s".data
    database := some "d".data
    user := none
    password := none
    port := some "1".data
    driver := some "D".data
    windowsAuth := some "true".data
    encrypt := none
    trustCert := none }

/-- The descriptor `cfgWitness` produces. -/
def csWitness : List Char :=
  "DRIVER=\x7bD\x7d;SERVER=s,1;DATABASE=d;Trusted_Connection=yes".data

/-- World in which every probe fails and reconnection yields handle 7. -/
def wReconnect : ConnWorld :=
  { probeOk := fun _ => false
    connect := fun _ => .ok 7 }

/-- C5 witness: a failed probe of stored handle 3 leads to probe, close,
reopen (with the descriptor rebuilt from the current configuration) and
handle 7 stored and returned. -/
theorem C5_connection_lifecycle_witness :
    get_connection wReconnect cfgWitness (some 3) =
      (.ok 7, some 7,
        [.probe 3 false, .closeAttempt 3, .openAttempt csWitness (.ok 7)]) :=
  (C5_connection_lifecycle wReconnect cfgWitness 3 csWitness rfl).2 7 rfl rfl

/-! ## C8: no redundant reconnect -/

theorem get_connection_none_eq (w : ConnWorld) (cfg : Config)
    (cs : List Char) (hcs : get_connection_string cfg = .ok cs) :
    get_connection w cfg none =
      (match w.connect cs with
       | .error e => (.error e, none, [.openAttempt cs (.error e)])
       | .ok h => (.ok h, some h, [.openAttempt cs (.ok h)])) := by
  unfold get_connection
  rw [hcs]

theorem get_connection_some_eq (w : ConnWorld) (cfg : Config) (c : Nat)
    (cs : List Char) (hcs : get_connection_string cfg = .ok cs) :
    get_connection w cfg (some c) =
      (if w.probeOk c then (.ok c, some c, [.probe c true])
       else
        match w.connect cs with
        | .error e =>
          (.error e, some c,
            [.probe c false, .closeAttempt c, .openAttempt cs (.error e)])
        | .ok h =>
          (.ok h, some h,
            [.probe c false, .closeAttempt c, .openAttempt cs (.ok h)])) := by
  unfold get_connection
  rw [hcs]

theorem get_connection_string_ok_of_result {w : ConnWorld} {cfg : Config}
    {st st' : Option Nat} {h : Nat} {evs : List ConnEvent}
    (hr : get_connection w cfg st = (.ok h, st', evs)) :
    ∃ cs, get_connection_string cfg = .ok cs := by
  cases hcs : get_connection_string cfg with
  | error e =>
    unfold get_connection at hr
    rw [hcs] at hr
    simp at hr
  | ok cs => exact ⟨cs, rfl⟩

theorem get_connection_ok_state {w : ConnWorld} {cfg : Config}
    {st st' : Option Nat} {h : Nat} {evs : List ConnEvent}
    (hr : get_connection w cfg st = (.ok h, st', evs)) :
    st' = some h ∧ ∃ cs, get_connection_string cfg = .ok cs := by
  obtain ⟨cs, hcs⟩ := get_connection_string_ok_of_result hr
  refine ⟨?_, cs, hcs⟩
  cases st with
  | none =>
    rw [get_connection_none_eq w cfg cs hcs] at hr
    cases hc : w.connect cs with
    | error e =>
      rw [hc] at hr
      simp at hr
    | ok h0 =>
      rw [hc] at hr
      simp only [Prod.mk.injEq, Except.ok.injEq] at hr
      rw [← hr.2.1, hr.1]
  | some c =>
    rw [get_connection_some_eq w cfg c cs hcs] at hr
    by_cases hp : w.probeOk c = true
    · rw [if_pos hp] at hr
      simp only [Prod.mk.injEq, Except.ok.injEq] at hr
      rw [← hr.2.1, hr.1]
    · rw [if_neg hp] at hr
      cases hc : w.connect cs with
      | error e =>
        rw [hc] at hr
        simp at hr
      | ok h0 =>
        rw [hc] at hr
        simp only [Prod.mk.injEq, Except.ok.injEq] at hr
        rw [← hr.2.1, hr.1]

/-- C8: if one `get_connection` call succeeds with handle `h`, a second
call under the same configuration whose probe of `h` succeeds returns the
very same stored handle, performing only the probe -- no close, no open,
no reconnect. -/
theorem C8_second_acquire_reuses_handle (w w' : ConnWorld) (cfg : Config)
    (st st' : Option Nat) (h : Nat) (evs : List ConnEvent)
    (h1 : get_connection w cfg st = (.ok h, st', evs))
    (hp : w'.probeOk h = true) :
    get_connection w' cfg st' = (.ok h, some h, [.probe h true]) := by
  obtain ⟨hst, cs, hcs⟩ := get_connection_ok_state h1
  subst hst
  unfold get_connection
  rw [hcs]
  simp [hp]

/-- World whose first call opens handle 9 and whose probes succeed. -/
def wFresh : ConnWorld :=
  { probeOk := fun _ => true
    connect := fun _ => .ok 9 }

/-- C8 witness: after a first call that opens handle 9 from an empty slot,
the second call returns the same handle 9 with only a probe. -/
theorem C8_second_acquire_reuses_handle_witness :
    get_connection wFresh cfgWitness (some 9) =
      (.ok 9, some 9, [.probe 9 true]) :=
  C8_second_acquire_reuses_handle wFresh wFresh cfgWitness none (some 9) 9
    [.openAttempt csWitness (.ok 9)] rfl rfl

/-! ## C7: capped table preview through the sanitizer -/

theorem leadsWith_append (xs ys : List Char) :
    leadsWith xs (xs ++ ys) = true := by
  induction xs with
  | nil => rfl
  | cons a as ih => simp [leadsWith, ih]

/-- C7: every successful preview (`read_resource`) passed through the
Identifier Sanitizer (the success demands a sanitized form of the
caller-supplied table name), queried the engine at that sanitized name,
and rendered a RowSet with one header line and at most 100 data rows,
however many rows the table holds. -/
theorem C7_preview_sanitized_and_capped {Cell : Type} (w : RRWorld Cell)
    (uri text : List Char) (h : read_resource w uri = .ok text) :
    ∃ safe t, validate_table_name (rrTable uri) = some safe ∧
      w.db safe = .ok t ∧
      text = renderRowSet w.str t.columns (t.rows.take 100) ∧
      (t.rows.take 100).length ≤ 100 := by
  unfold read_resource runPreviewSql at h
  cases hs : leadsWith schemeChars uri with
  | false =>
    rw [hs] at h
    simp at h
  | true =>
    rw [hs] at h
    simp only [if_true] at h
    cases hv : validate_table_name (rrTable uri) with
    | none =>
      simp only [hv] at h
      exact Except.noConfusion h
    | some safe =>
      simp only [hv] at h
      cases hcr : w.connRes with
      | error e =>
        simp only [hcr] at h
        exact Except.noConfusion h
      | ok u =>
        simp only [hcr, leadsWith_append, if_true, List.drop_left] at h
        cases hdb : w.db safe with
        | error e =>
          simp only [hdb] at h
          exact Except.noConfusion h
        | ok t =>
          simp only [hdb, Except.ok.injEq] at h
          exact ⟨safe, t, rfl, hdb, h.symm, List.length_take_le 100 t.rows⟩

/-- World used by the C7 witness: a `Users` table with two rows. -/
def rrWitness : RRWorld (List Char) :=
  { str := fun s => s
    connRes := .ok ()
    db := fun k =>
      if k = "[Users]".data then
        .ok { columns := ["Id".data], rows := [["1".data], ["2".data]] }
      else .error "missing object".data }

/-- C7 witness: the preview of `mssql://Users/data` succeeds, so the
theorem yields the sanitized name, the queried table, and the capped
rendering. -/
theorem C7_preview_sanitized_and_capped_witness :
    ∃ safe t,
      validate_table_name (rrTable "mssql://Users/data".data) = some safe ∧
      rrWitness.db safe = .ok t ∧
      "Id\n1\n2".data = renderRowSet rrWitness.str t.columns (t.rows.take 100) ∧
      (t.rows.take 100).length ≤ 100 :=
  C7_preview_sanitized_and_capped rrWitness "mssql://Users/data".data
    "Id\n1\n2".data (by rfl)

/-! ## C9: listing resources never propagates a failure -/

/-- C9: whatever failure occurs while listing (connection, catalog query,
fetch -- all folded into the `catalog` outcome, matching the source's
single `try` with an `except` returning `[]`), `list_resources` yields the
empty list; on success it yields exactly one resource per catalog table,
in order. -/
theorem C9_list_resources_failure_empty :
    (∀ e, list_resources (.error e) = []) ∧
    (∀ (tables : List (List Char)) (i : Nat),
      (list_resources (.ok tables))[i]? =
        (tables[i]?).map mkTableResource) := by
  constructor
  · intro e
    rfl
  · intro tables i
    simp [list_resources]

end MssqlMcp
